import Mathlib

/-!
Verification of the terraform-dashboard ingestion core against its
natural-language specification.

The development shallowly embeds the Go sources of the repository:

* `internal/model` (the data model: `TerraformFile`, `TerraformObject`),
* `internal/queue/queue.go` (`InMemoryQueue`: `Enqueue`, `Dequeue`, `Size`,
  `Close`),
* the parser registry (`ParserRegistry.Register` / `ParserRegistry.Parse`),
* the state-snapshot parser (`StateParser.Parse`, `generateObjectID`,
  `extractProviderName`),
* the declarative-config parser (`TerraformParser.parseBlock`,
  `extractConfiguration`, `extractSimpleValue`).

External libraries (JSON decoding, the HCL grammar) are out of scope for the
repository itself; where a parser consumes their output, the embedded function
takes the decode result as an explicit argument.  The wall clock (`time.Now()`)
is passed as an explicit `now : Nat` argument.  Go machine integers that matter
here are modelled as `Nat` with explicit reduction modulo `2 ^ 32` inside the
SHA-256 implementation.
-/

set_option autoImplicit false

namespace TerraformDashboard

/-! ## Data model (`internal/model`) -/

/-- `model.FileSource`: the source of a collected file. -/
inductive FileSource where
  | s3
  | kubernetes
  | bitbucket
deriving DecidableEq, Repr

/-- `model.FileType`: the content-type tag of a collected file. -/
inductive FileType where
  | tf
  | tfstate
deriving DecidableEq, Repr

/-- `model.TerraformObjectType`: the closed set of record-kind tags. -/
inductive TerraformObjectType where
  | resource
  | provider
  | variable'
  | output
  | module
  | data
deriving DecidableEq, Repr

/-- The string value of each `TerraformObjectType` constant in the Go source. -/
def TerraformObjectType.tag : TerraformObjectType → String
  | .resource => "resource"
  | .provider => "provider"
  | .variable' => "variable"
  | .output => "output"
  | .module => "module"
  | .data => "data"

/-- A JSON-like value, modelling Go `interface{}` values decoded from JSON or
extracted from HCL attribute expressions. -/
inductive JsonValue where
  | null
  | bool (b : Bool)
  | num (n : Int)
  | str (s : String)
  | arr (elems : List JsonValue)
  | obj (fields : List (String × JsonValue))

/-- `model.TerraformFile`: a collected item. -/
structure TerraformFile where
  id : String
  source : FileSource
  sourcePath : String
  fileType : FileType
  content : String
  contentHash : String
  collectedAt : Nat
  updatedAt : Nat
deriving DecidableEq, Repr

/-- `model.TerraformObject`: a normalized record produced by a parser.
Fields the Go code leaves unset keep their Go zero value (`""`, `0`, `[]`). -/
structure TerraformObject where
  id : String
  fileID : String
  type : TerraformObjectType
  name : String
  resourceType : String
  configuration : List (String × JsonValue)
  dependencies : List String
  address : String
  mode : String
  providerName : String
  schemaVersion : Int
  sensitiveValues : List String
  createdAt : Nat
  updatedAt : Nat

/-! ## Concurrent queue (`internal/queue/queue.go`)

Sequential functional embedding of `InMemoryQueue`.  A `context.Context` is
modelled by whether its cancellation has fired (`ctx.Done()` is selectable /
`ctx.Err() ≠ nil`).  `Enqueue` appends under the mutex and signals; `Dequeue`
loops: while the buffer is empty it first polls cancellation (the `select` with
a `default` branch) and otherwise parks on the condition variable; once the
buffer is non-empty it pops the head without ever consulting the context.
`Close` only broadcasts: it mutates no state and sets no flag. -/

/-- A Go `context.Context`, reduced to its cancellation status. -/
structure Ctx where
  cancelled : Bool
deriving DecidableEq, Repr

/-- `queue.InMemoryQueue`: the slice of buffered items (the mutex and condition
variable carry no additional state). -/
structure InMemoryQueue (T : Type) where
  items : List T
deriving DecidableEq, Repr

/-- `queue.NewInMemoryQueue`. -/
def InMemoryQueue.new (T : Type) : InMemoryQueue T := ⟨[]⟩

/-- `InMemoryQueue.Enqueue`: appends and returns `nil` error, whatever the
context's state.  The `cond.Signal()` call affects only blocked consumers,
modelled in the transition system further below. -/
def InMemoryQueue.enqueue {T : Type} (q : InMemoryQueue T) (_ctx : Ctx) (item : T) :
    InMemoryQueue T × Option String :=
  (⟨q.items ++ [item]⟩, none)

/-- Outcome of one sequential `Dequeue` call: an item, a cancellation error
(`ctx.Err()`), or parking on `cond.Wait()` with no producer to wake it. -/
inductive DequeueOutcome (T : Type) where
  | item (x : T)
  | cancelledErr
  | blocked
deriving DecidableEq, Repr

/-- `InMemoryQueue.Dequeue`, sequentially: with an empty buffer the loop body
polls cancellation and otherwise waits; with a non-empty buffer it pops the
head (never looking at the context). -/
def InMemoryQueue.dequeue {T : Type} (q : InMemoryQueue T) (ctx : Ctx) :
    DequeueOutcome T × InMemoryQueue T :=
  match q.items with
  | [] => if ctx.cancelled then (.cancelledErr, q) else (.blocked, q)
  | x :: rest => (.item x, ⟨rest⟩)

/-- `InMemoryQueue.Size`. -/
def InMemoryQueue.size {T : Type} (q : InMemoryQueue T) : Nat :=
  q.items.length

/-- `InMemoryQueue.Close`: broadcasts to wake blocked consumers and returns
`nil`; the buffer is untouched and no terminated flag exists. -/
def InMemoryQueue.close {T : Type} (q : InMemoryQueue T) :
    InMemoryQueue T × Option String :=
  (q, none)

/-- Enqueue a whole list of items in order (the producer side of the FIFO
scenario). -/
def enqueueAll {T : Type} (ctx : Ctx) (q : InMemoryQueue T) : List T → InMemoryQueue T
  | [] => q
  | x :: xs => enqueueAll ctx (q.enqueue ctx x).1 xs

/-- Perform `n` successive `Dequeue` calls, collecting the outcomes. -/
def dequeueN {T : Type} (ctx : Ctx) : Nat → InMemoryQueue T →
    List (DequeueOutcome T) × InMemoryQueue T
  | 0, q => ([], q)
  | n + 1, q =>
    let r := q.dequeue ctx
    let rest := dequeueN ctx n r.2
    (r.1 :: rest.1, rest.2)

theorem enqueueAll_items {T : Type} (ctx : Ctx) (q : InMemoryQueue T) (xs : List T) :
    (enqueueAll ctx q xs).items = q.items ++ xs := by
  induction xs generalizing q with
  | nil => simp [enqueueAll]
  | cons x xs ih => simp [enqueueAll, InMemoryQueue.enqueue, ih]

theorem dequeueN_of_full {T : Type} (ctx : Ctx) (ys : List T) :
    dequeueN ctx ys.length ⟨ys⟩ = (ys.map DequeueOutcome.item, ⟨[]⟩) := by
  induction ys with
  | nil => simp [dequeueN]
  | cons y ys ih => simp [dequeueN, InMemoryQueue.dequeue, ih]

/-- **C2** — FIFO: enqueueing `xs` onto an initially empty queue and then
performing `xs.length` dequeues with a non-cancelled context returns exactly
`xs`, in order, leaving the queue empty; each step pops the current head, the
oldest item still buffered. -/
theorem queue_fifo_single_consumer {T : Type} (ctx : Ctx) (xs : List T)
    (_h : ctx.cancelled = false) :
    dequeueN ctx xs.length (enqueueAll ctx (InMemoryQueue.new T) xs) =
      (xs.map DequeueOutcome.item, InMemoryQueue.new T) := by
  have hq : enqueueAll ctx (InMemoryQueue.new T) xs = ⟨xs⟩ := by
    have h2 := enqueueAll_items ctx (InMemoryQueue.new T) xs
    cases h3 : enqueueAll ctx (InMemoryQueue.new T) xs with
    | mk items =>
      rw [h3] at h2
      simp [InMemoryQueue.new] at h2
      subst h2
      rfl
  rw [hq]
  exact dequeueN_of_full ctx xs

/-- Witness for `queue_fifo_single_consumer` at a concrete run. -/
theorem queue_fifo_single_consumer_witness :
    (Ctx.mk false).cancelled = false ∧
      dequeueN (Ctx.mk false) [10, 20, 30].length
          (enqueueAll (Ctx.mk false) (InMemoryQueue.new Nat) [10, 20, 30]) =
        ([.item 10, .item 20, .item 30], InMemoryQueue.new Nat) :=
  ⟨rfl, queue_fifo_single_consumer (Ctx.mk false) [10, 20, 30] rfl⟩

/-- **C10** — `Enqueue` is total: for every queue state, item and context
(cancelled or not), it reports no error and appends the item; `Close` also
reports no error and leaves the buffer unchanged, so enqueueing after a close
still succeeds and appends. -/
theorem enqueue_never_fails {T : Type} (ctx : Ctx) (q : InMemoryQueue T) (x : T) :
    (q.enqueue ctx x).2 = none ∧
      (q.enqueue ctx x).1.items = q.items ++ [x] ∧
      q.close.2 = none ∧
      q.close.1.items = q.items ∧
      (q.close.1.enqueue ctx x).2 = none ∧
      (q.close.1.enqueue ctx x).1.items = q.items ++ [x] :=
  ⟨rfl, rfl, rfl, rfl, rfl, rfl⟩

/-! ## Transition system for a blocked consumer

To settle the temporal claim about `Dequeue`, the interaction between one
consumer executing `Dequeue` and its environment is modelled as a labelled
transition system.  The consumer's position inside the `Dequeue` code is:

* `checking` — holding the mutex at the top of the `for len(q.items) == 0`
  loop (it will pop an item, observe cancellation in the `select`, or park);
* `parked` — inside `q.cond.Wait()`.  Go's `sync.Cond.Wait` returns only when
  awoken by `Signal` or `Broadcast` (no spurious wakeups), so a parked
  consumer has no transition of its own;
* `returnedItem` / `returnedCancelled` — `Dequeue` has returned.

Environment events: a scheduler step for the consumer, `Enqueue` (appends and
signals, waking the parked consumer), `Close` (broadcasts, waking the parked
consumer), and the firing of the caller's cancellation — which in the source
touches only the `context`, never the condition variable, and therefore wakes
nobody. -/

/-- The consumer's position inside one `Dequeue` call. -/
inductive ConsumerState (T : Type) where
  | checking
  | parked
  | returnedItem (x : T)
  | returnedCancelled
deriving DecidableEq, Repr

/-- State of the queue together with one consumer blocked in `Dequeue`. -/
structure QueueSystem (T : Type) where
  buffer : List T
  cancelled : Bool
  consumer : ConsumerState T
deriving DecidableEq, Repr

/-- Events acting on the system. -/
inductive QueueEvent (T : Type) where
  | consumerStep
  | enqueueItem (x : T)
  | closeQueue
  | cancelCtx
deriving DecidableEq, Repr

/-- One transition, read off the source of `Dequeue`, `Enqueue` and `Close`:
a `checking` consumer pops a non-empty buffer, else returns `ctx.Err()` if
cancellation has fired, else parks; `Enqueue`'s `cond.Signal()` and `Close`'s
`cond.Broadcast()` move a parked consumer back to `checking`; cancellation
only flips the context flag. -/
def queueStep {T : Type} (s : QueueSystem T) : QueueEvent T → QueueSystem T
  | .consumerStep =>
    match s.consumer with
    | .checking =>
      match s.buffer with
      | x :: rest => { s with buffer := rest, consumer := .returnedItem x }
      | [] =>
        if s.cancelled then { s with consumer := .returnedCancelled }
        else { s with consumer := .parked }
    | _ => s
  | .enqueueItem x =>
    { s with
      buffer := s.buffer ++ [x]
      consumer := match s.consumer with | .parked => .checking | c => c }
  | .closeQueue =>
    { s with consumer := match s.consumer with | .parked => .checking | c => c }
  | .cancelCtx => { s with cancelled := true }

/-- Run a sequence of events. -/
def queueRun {T : Type} (s : QueueSystem T) (evs : List (QueueEvent T)) : QueueSystem T :=
  evs.foldl queueStep s

/-- A consumer that has parked stays parked under scheduler steps alone. -/
theorem queueStep_parked_fixed {T : Type} (buf : List T) (c : Bool)
    (evs : List (QueueEvent T)) (hevs : ∀ e ∈ evs, e = .consumerStep ∨ e = .cancelCtx) :
    ∃ c', queueRun ⟨buf, c, .parked⟩ evs = ⟨buf, c', .parked⟩ := by
  induction evs generalizing c with
  | nil => exact ⟨c, rfl⟩
  | cons e es ih =>
    rcases hevs e (List.mem_cons_self e es) with he | he <;> subst he
    · exact ih c fun e' h' => hevs e' (List.mem_cons_of_mem _ h')
    · exact ih true fun e' h' => hevs e' (List.mem_cons_of_mem _ h')

/-- **C1** — the code misses cancellation for a parked consumer: starting from
an empty queue, the consumer's `Dequeue` call parks (`consumerStep`), the
caller's cancellation then fires (`cancelCtx`), and afterwards — with no
further `Enqueue` or `Close` — the consumer remains parked after any number
of scheduler steps: the `Dequeue` call never returns, in particular it never
reports cancellation, contradicting the claimed eventual cancellation report. -/
theorem dequeue_parked_misses_cancellation (n : Nat) :
    queueRun (⟨[], false, .checking⟩ : QueueSystem Nat)
        ([.consumerStep, .cancelCtx] ++ List.replicate n .consumerStep) =
      ⟨[], true, .parked⟩ := by
  have h1 : queueRun (⟨[], false, .checking⟩ : QueueSystem Nat)
      [.consumerStep, .cancelCtx] = ⟨[], true, .parked⟩ := rfl
  have h2 : ∀ m, queueRun (⟨[], true, .parked⟩ : QueueSystem Nat)
      (List.replicate m .consumerStep) = ⟨[], true, .parked⟩ := by
    intro m
    induction m with
    | zero => rfl
    | succ m ih => simpa [List.replicate_succ, queueRun, queueStep] using ih
  calc queueRun (⟨[], false, .checking⟩ : QueueSystem Nat)
        ([.consumerStep, .cancelCtx] ++ List.replicate n .consumerStep)
      = queueRun (queueRun ⟨[], false, .checking⟩ [.consumerStep, .cancelCtx])
          (List.replicate n .consumerStep) := by
        simp [queueRun, List.foldl_append]
    _ = ⟨[], true, .parked⟩ := by rw [h1]; exact h2 n

/-! ## Parser registry (`ParserRegistry`)

A `Parser` is an interface object: a capability predicate `CanParse` on the
file type and a `Parse` function.  `Register` appends to the ordered slice;
`Parse` scans the slice in order and invokes the first parser whose
`CanParse` accepts the item's file type, returning its output unchanged; with
no match it returns an empty slice and no error.  To reason about which
`Parse` methods ran, the embedded dispatch also returns the list of parsers
whose `Parse` was invoked (the loop invokes at most one). -/

/-- The `parser.Parser` interface. -/
structure Parser where
  canParse : FileType → Bool
  parse : TerraformFile → Except String (List TerraformObject)

/-- `parser.ParserRegistry`: the ordered slice of registered parsers. -/
structure ParserRegistry where
  parsers : List Parser

/-- `parser.NewParserRegistry`. -/
def ParserRegistry.new : ParserRegistry := ⟨[]⟩

/-- `ParserRegistry.Register`: append, keeping registration order. -/
def ParserRegistry.register (r : ParserRegistry) (p : Parser) : ParserRegistry :=
  ⟨r.parsers ++ [p]⟩

/-- The dispatch loop of `ParserRegistry.Parse`, instrumented with the list of
parsers whose `Parse` method was invoked. -/
def dispatchLoop (file : TerraformFile) :
    List Parser → Except String (List TerraformObject) × List Parser
  | [] => (.ok [], [])
  | p :: rest =>
    if p.canParse file.fileType then (p.parse file, [p])
    else dispatchLoop file rest

/-- `ParserRegistry.Parse`: result and the parsers actually invoked. -/
def ParserRegistry.parseWithTrace (r : ParserRegistry) (file : TerraformFile) :
    Except String (List TerraformObject) × List Parser :=
  dispatchLoop file r.parsers

/-- `ParserRegistry.Parse`, result only. -/
def ParserRegistry.parse (r : ParserRegistry) (file : TerraformFile) :
    Except String (List TerraformObject) :=
  (r.parseWithTrace file).1

/-- **C3** — dispatch precedence is registration order: if every parser
registered before `A` rejects the item's file type and both `A` and the
later-registered `B` accept it, then dispatch returns `A`'s output unchanged
and the only parser whose `Parse` is invoked is `A` — in particular `B`'s
`Parse` is never called (whatever sits between or after them). -/
theorem dispatch_first_registered_wins (pre mid post : List Parser) (A B : Parser)
    (file : TerraformFile)
    (hpre : ∀ p ∈ pre, p.canParse file.fileType = false)
    (hA : A.canParse file.fileType = true)
    (_hB : B.canParse file.fileType = true) :
    (ParserRegistry.mk (pre ++ A :: mid ++ B :: post)).parseWithTrace file =
      (A.parse file, [A]) := by
  induction pre with
  | nil =>
    simp [ParserRegistry.parseWithTrace, dispatchLoop, hA]
  | cons p ps ih =>
    have hp := hpre p (List.mem_cons_self p ps)
    have hps : ∀ q ∈ ps, q.canParse file.fileType = false :=
      fun q hq => hpre q (List.mem_cons_of_mem _ hq)
    simpa [ParserRegistry.parseWithTrace, dispatchLoop, hp] using ih hps

/-- A parser accepting only state files and returning a fixed output,
exercising the registry in the witnesses. -/
def stateOnlyParserA : Parser :=
  ⟨fun ft => ft == .tfstate, fun _ => .ok []⟩

/-- A second parser accepting state files, registered after
`stateOnlyParserA` in the precedence witness; its output is observably
different so that returning it would be detected. -/
def stateOnlyParserB : Parser :=
  ⟨fun ft => ft == .tfstate, fun _ => .error "parser B ran"⟩

/-- A concrete collected item tagged as a state snapshot. -/
def sampleStateFile : TerraformFile :=
  ⟨"file-1", .s3, "s3://bucket/terraform.tfstate", .tfstate, "{}", "hash", 0, 0⟩

/-- A concrete collected item tagged as declarative configuration. -/
def sampleTfFile : TerraformFile :=
  ⟨"file-2", .s3, "s3://bucket/main.tf", .tf, "", "hash2", 0, 0⟩

/-- Witness for `dispatch_first_registered_wins`: registering `A` then `B`,
both accepting `tfstate`, dispatch on a `tfstate` item returns `A`'s output
and invokes only `A`. -/
theorem dispatch_first_registered_wins_witness :
    (ParserRegistry.mk ([] ++ stateOnlyParserA :: [] ++ stateOnlyParserB :: [])).parseWithTrace
        sampleStateFile =
      (stateOnlyParserA.parse sampleStateFile, [stateOnlyParserA]) :=
  dispatch_first_registered_wins [] [] [] stateOnlyParserA stateOnlyParserB
    sampleStateFile (by intro p hp; cases hp) rfl rfl

/-- **C4** — an unmatched content type is silently dropped: if no registered
parser accepts the item's file type (in particular in an empty registry),
dispatch returns the empty record list, no error, and invokes no parser. -/
theorem dispatch_unmatched_returns_empty (parsers : List Parser) (file : TerraformFile)
    (hnone : ∀ p ∈ parsers, p.canParse file.fileType = false) :
    (ParserRegistry.mk parsers).parseWithTrace file = (.ok [], []) := by
  induction parsers with
  | nil => rfl
  | cons p ps ih =>
    have hp := hnone p (List.mem_cons_self p ps)
    have hps : ∀ q ∈ ps, q.canParse file.fileType = false :=
      fun q hq => hnone q (List.mem_cons_of_mem _ hq)
    simpa [ParserRegistry.parseWithTrace, dispatchLoop, hp] using ih hps

/-- Witness for `dispatch_unmatched_returns_empty`: a registry holding one
parser that accepts only state files, dispatching a `tf`-tagged item. -/
theorem dispatch_unmatched_returns_empty_witness :
    (ParserRegistry.mk [stateOnlyParserA]).parseWithTrace sampleTfFile = (.ok [], []) :=
  dispatch_unmatched_returns_empty [stateOnlyParserA] sampleTfFile
    (by
      intro p hp
      rcases List.mem_singleton.mp hp with rfl
      rfl)

/-! ## SHA-256 (FIPS 180-4)

`generateObjectID` hashes its preimage with `crypto/sha256`.  The hash is
embedded as a pure function over byte lists, with 32-bit words modelled as
`Nat` reduced modulo `2 ^ 32`. -/

namespace Sha256

/-- Reduce to a 32-bit word. -/
def w32 (x : Nat) : Nat := x % 2 ^ 32

/-- Right rotation of a 32-bit word. -/
def rotr (n x : Nat) : Nat := w32 (x / 2 ^ n + x % 2 ^ n * 2 ^ (32 - n))

/-- Logical right shift. -/
def shr (n x : Nat) : Nat := x / 2 ^ n

def ch (e f g : Nat) : Nat := (e &&& f) ^^^ ((0xffffffff ^^^ e) &&& g)

def maj (a b c : Nat) : Nat := (a &&& b) ^^^ (a &&& c) ^^^ (b &&& c)

def bigSigma0 (a : Nat) : Nat := rotr 2 a ^^^ rotr 13 a ^^^ rotr 22 a

def bigSigma1 (e : Nat) : Nat := rotr 6 e ^^^ rotr 11 e ^^^ rotr 25 e

def smallSigma0 (x : Nat) : Nat := rotr 7 x ^^^ rotr 18 x ^^^ shr 3 x

def smallSigma1 (x : Nat) : Nat := rotr 17 x ^^^ rotr 19 x ^^^ shr 10 x

/-- The 64 round constants (FIPS 180-4 §4.2.2), as decimal `Nat` literals. -/
def K : List Nat :=
  [1116352408, 1899447441, 3049323471, 3921009573, 961987163, 1508970993,
   2453635748, 2870763221, 3624381080, 310598401, 607225278, 1426881987,
   1925078388, 2162078206, 2614888103, 3248222580, 3835390401, 4022224774,
   264347078, 604807628, 770255983, 1249150122, 1555081692, 1996064986,
   2554220882, 2821834349, 2952996808, 3210313671, 3336571891, 3584528711,
   113926993, 338241895, 666307205, 773529912, 1294757372, 1396182291,
   1695183700, 1986661051, 2177026350, 2456956037, 2730485921, 2820302411,
   3259730800, 3345764771, 3516065817, 3600352804, 4094571909, 275423344,
   430227734, 506948616, 659060556, 883997877, 958139571, 1322822218,
   1537002063, 1747873779, 1955562222, 2024104815, 2227730452, 2361852424,
   2428436474, 2756734187, 3204031479, 3329325298]

/-- The initial hash value (FIPS 180-4 §5.3.3), as decimal `Nat` literals. -/
def H0 : List Nat :=
  [1779033703, 3144134277, 1013904242, 2773480762,
   1359893119, 2600822924, 528734635, 1541459225]

/-- Big-endian bytes of `n`, `count` bytes wide. -/
def natToBytesBE (count n : Nat) : List Nat :=
  (List.range count).reverse.map fun i => n / 2 ^ (8 * i) % 256

/-- Append the `0x80` marker, zero padding and the 64-bit big-endian bit
length, reaching a multiple of 64 bytes. -/
def padMessage (msg : List Nat) : List Nat :=
  let padLen := (120 - (msg.length + 1) % 64) % 64
  msg ++ 0x80 :: (List.replicate padLen 0 ++ natToBytesBE 8 (msg.length * 8))

/-- Group bytes into big-endian 32-bit words. -/
def bytesToWords : List Nat → List Nat
  | b0 :: b1 :: b2 :: b3 :: rest =>
    (((b0 * 256 + b1) * 256 + b2) * 256 + b3) :: bytesToWords rest
  | _ => []

/-- Split into `n` chunks of 64 bytes. -/
def takeBlocks : Nat → List Nat → List (List Nat)
  | 0, _ => []
  | n + 1, l => l.take 64 :: takeBlocks n (l.drop 64)

/-- Split a padded message into its 64-byte blocks. -/
def toBlocks (l : List Nat) : List (List Nat) :=
  takeBlocks (l.length / 64) l

/-- Extend the 16-word message schedule by `n` further words. -/
def extendW : Nat → List Nat → List Nat
  | 0, w => w
  | n + 1, w =>
    let t := w.length
    extendW n (w ++ [w32 (smallSigma1 (w.getD (t - 2) 0) + w.getD (t - 7) 0 +
      smallSigma0 (w.getD (t - 15) 0) + w.getD (t - 16) 0)])

/-- The 64-word message schedule of one block. -/
def schedule (block : List Nat) : List Nat :=
  extendW 48 (bytesToWords block)

/-- One compression round on the working variables `[a, b, c, d, e, f, g, h]`. -/
def roundStep (st : List Nat) (kw : Nat × Nat) : List Nat :=
  match st with
  | [a, b, c, d, e, f, g, h] =>
    let t1 := w32 (h + bigSigma1 e + ch e f g + kw.1 + kw.2)
    let t2 := w32 (bigSigma0 a + maj a b c)
    [w32 (t1 + t2), a, b, c, w32 (d + t1), e, f, g]
  | st => st

/-- Compress one 64-byte block into the running hash. -/
def compress (hs : List Nat) (block : List Nat) : List Nat :=
  let st := (K.zip (schedule block)).foldl roundStep hs
  (hs.zip st).map fun p => w32 (p.1 + p.2)

/-- SHA-256 digest (32 bytes) of a byte list. -/
def digest (msg : List Nat) : List Nat :=
  ((toBlocks (padMessage msg)).foldl compress H0).flatMap (natToBytesBE 4)

/-- One lowercase hexadecimal digit. -/
def hexDigit (n : Nat) : Char :=
  "0123456789abcdef".data.getD n '0'

/-- Lowercase hexadecimal rendering of a byte list (Go's `%x`). -/
def hexOfBytes (bs : List Nat) : String :=
  String.mk (bs.flatMap fun b => [hexDigit (b / 16), hexDigit (b % 16)])

end Sha256

/-- UTF-8 encoding of a string as a byte list (Go strings are UTF-8 byte
slices). -/
def utf8Bytes (s : String) : List Nat :=
  s.data.flatMap fun c =>
    let n := c.toNat
    if n < 0x80 then [n]
    else if n < 0x800 then
      [0xc0 ||| n / 64, 0x80 ||| n % 64]
    else if n < 0x10000 then
      [0xe0 ||| n / 4096, 0x80 ||| n / 64 % 64, 0x80 ||| n % 64]
    else
      [0xf0 ||| n / 262144, 0x80 ||| n / 4096 % 64, 0x80 ||| n / 64 % 64, 0x80 ||| n % 64]

/-- `parser.generateObjectID`: join the four inputs with `":"`, hash with
SHA-256, keep the first 8 digest bytes, render them in hex. -/
def generateObjectID (fileID resourceType name : String) (index : Nat) : String :=
  Sha256.hexOfBytes
    ((Sha256.digest (utf8Bytes
      (fileID ++ ":" ++ resourceType ++ ":" ++ name ++ ":" ++ toString index))).take 8)

/-! ## Provider-name extraction (`extractProviderName`)

The Go function scans the provider string's bytes: a first loop walks from
the last index downward looking for `'/'` and sets `start` to one past it
(leaving `start = len-1` when there is none); a second loop walks from
`start` upward looking for `'"'` or `']'` and sets the end of the slice
there (or at the string's end); the slice is returned when non-empty,
otherwise the whole string.  Strings are modelled by their character lists
(the repository's provider strings are ASCII, where bytes and characters
coincide).  The downward scan is the first match in the reversed list; the
upward scan is the first match in the list dropped at `start`. -/

/-- The first loop of `extractProviderName`: walk from the last index
downward; at the first `'/'` (the last one in the string) set `start` to one
past it and break; if none is found `start` keeps its initial value
`len - 1`.  Scanning downward is the first match in the reversed list: a
reversed index `j` is original index `len - 1 - j`. -/
def provStart (p : List Char) : Nat :=
  match p.reverse.findIdx? (· == '/') with
  | some j => (p.length - 1 - j) + 1
  | none => p.length - 1

/-- The second loop of `extractProviderName`: walk from `start` upward; at
the first `'"'` or `']'` set the end of the slice and break; if none is found
the end stays `len`.  The scan over indices `start, …, len - 1` is the first
match in the list dropped at `start`. -/
def provStop (p : List Char) (start : Nat) : Nat :=
  match (p.drop start).findIdx? (fun c => c == '"' || c == ']') with
  | some j => start + j
  | none => p.length

/-- `parser.extractProviderName`, translated loop by loop: the guard on the
empty string, the two scanning loops, and the final
`if start < end { return provider[start:end] } / return provider`. -/
def extractProviderName (provider : String) : String :=
  if provider.length = 0 then ""
  else
    if provStart provider.data < provStop provider.data (provStart provider.data) then
      String.mk ((provider.data.drop (provStart provider.data)).take
        (provStop provider.data (provStart provider.data) - provStart provider.data))
    else provider

/-- The corrected description of `extractProviderName`: take the characters
after the last `'/'` when one exists — otherwise only the last character —
then keep the run before the first `'"'` or `']'`; if that slice is empty,
fall back to the whole provider string; an empty input yields the empty
string. -/
def extractProviderNameAmended (provider : String) : String :=
  if provider.length = 0 then ""
  else
    if ((provider.data.drop (provStart provider.data)).takeWhile
        fun c => !(c == '"' || c == ']')).isEmpty then provider
    else
      String.mk ((provider.data.drop (provStart provider.data)).takeWhile
        fun c => !(c == '"' || c == ']'))

/-! ## State-snapshot parser (`StateParser`)

`StateParser.Parse` first decodes the item's content with `json.Unmarshal`
(an external library, out of scope per the spec); the embedding takes that
decode outcome as an explicit argument.  On decode failure the whole item
fails; on success one record is emitted per instance of each resource. -/

/-- `parser.StateInstance`. -/
structure StateInstance where
  schemaVersion : Int
  attributes : List (String × JsonValue)
  sensitiveAttrs : List String
  dependencies : List String

/-- `parser.StateResource`. -/
structure StateResource where
  mode : String
  type : String
  name : String
  provider : String
  instances : List StateInstance

/-- `parser.TerraformState`. -/
structure TerraformState where
  version : Int
  terraformVersion : String
  serial : Int
  lineage : String
  outputs : List (String × JsonValue)
  resources : List StateResource

/-- The record built for instance `i` of resource `r` in
`StateParser.Parse`'s inner loop.  Fields the Go code does not assign keep
their zero value. -/
def mkStateObject (now : Nat) (file : TerraformFile) (r : StateResource)
    (i : Nat) (inst : StateInstance) : TerraformObject where
  id := generateObjectID file.id r.type r.name i
  fileID := file.id
  type := .resource
  name := r.name
  resourceType := r.type
  configuration := inst.attributes
  dependencies := []
  address := r.type ++ "." ++ r.name
  mode := r.mode
  providerName := extractProviderName r.provider
  schemaVersion := inst.schemaVersion
  sensitiveValues := []
  createdAt := now
  updatedAt := now

/-- The record list built by `StateParser.Parse`'s nested loops over
resources and their instances (`i` is the instance's position). -/
def stateObjects (now : Nat) (file : TerraformFile) (st : TerraformState) :
    List TerraformObject :=
  st.resources.flatMap fun r => r.instances.enum.map fun p => mkStateObject now file r p.1 p.2

/-- `StateParser.CanParse`. -/
def StateParser.canParse (ft : FileType) : Bool := ft == .tfstate

/-- `StateParser.Parse`, given the `json.Unmarshal` outcome for the item's
content. -/
def StateParser.parse (now : Nat) (file : TerraformFile)
    (decoded : Except String TerraformState) : Except String (List TerraformObject) :=
  match decoded with
  | .error e => .error ("failed to parse state file: " ++ e)
  | .ok st => .ok (stateObjects now file st)

/-- **C5** — snapshot cardinality: when the content decodes to a snapshot
document, the parser succeeds with exactly one record per declared instance
(summed over all resource blocks); every record's kind is `resource` and its
address is its resource type, a dot, and its name.  When the top-level decode
fails, the parser returns an error and no records. -/
theorem snapshot_parse_cardinality (now : Nat) (file : TerraformFile) (st : TerraformState) :
    (∃ objs, StateParser.parse now file (.ok st) = .ok objs ∧
      objs.length = (st.resources.map fun r => r.instances.length).sum ∧
      ∀ o ∈ objs, o.type = .resource ∧ o.address = o.resourceType ++ "." ++ o.name) ∧
    ∀ e, StateParser.parse now file (.error e) =
      .error ("failed to parse state file: " ++ e) := by
  refine ⟨⟨stateObjects now file st, rfl, ?_, ?_⟩, fun e => rfl⟩
  · simp [stateObjects, List.length_flatMap, Function.comp_def, List.length_map,
      List.enum_length]
  · intro o ho
    rcases List.mem_flatMap.mp ho with ⟨r, _, hr⟩
    rcases List.mem_map.mp hr with ⟨p, _, rfl⟩
    exact ⟨rfl, rfl⟩

/-! ### Relating the index scans of `extractProviderName` to slice operations -/

theorem takeWhile_of_findIdx?_eq_none {α : Type} (q : α → Bool) :
    ∀ t : List α, t.findIdx? q = none → t.takeWhile (fun a => !q a) = t := by
  intro t
  induction t with
  | nil => intro _; rfl
  | cons a t ih =>
    intro h
    rw [List.findIdx?_cons] at h
    by_cases hq : q a
    · simp [hq] at h
    · rw [if_neg (by simp [hq]), List.findIdx?_succ] at h
      simp only [Option.map_eq_none'] at h
      simp [List.takeWhile_cons, hq, ih h]

theorem take_of_findIdx?_eq_some {α : Type} (q : α → Bool) :
    ∀ (t : List α) (j : Nat), t.findIdx? q = some j →
      t.take j = t.takeWhile (fun a => !q a) := by
  intro t
  induction t with
  | nil => intro j h; rw [List.findIdx?_nil] at h; cases h
  | cons a t ih =>
    intro j h
    rw [List.findIdx?_cons] at h
    by_cases hq : q a
    · rw [if_pos (by simp [hq])] at h
      cases h
      simp [List.takeWhile_cons, hq]
    · rw [if_neg (by simp [hq]), List.findIdx?_succ] at h
      rcases Option.map_eq_some'.mp h with ⟨j', hj', rfl⟩
      simp [List.takeWhile_cons, hq, List.take_succ_cons, ih j' hj']

theorem lt_length_of_findIdx?_eq_some {α : Type} (q : α → Bool) :
    ∀ (t : List α) (j : Nat), t.findIdx? q = some j → j < t.length := by
  intro t
  induction t with
  | nil => intro j h; rw [List.findIdx?_nil] at h; cases h
  | cons a t ih =>
    intro j h
    rw [List.findIdx?_cons] at h
    by_cases hq : q a
    · rw [if_pos (by simp [hq])] at h
      cases h
      simp
    · rw [if_neg (by simp [hq]), List.findIdx?_succ] at h
      rcases Option.map_eq_some'.mp h with ⟨j', hj', rfl⟩
      simpa using ih j' hj'

/-- The second loop plus the final slice-or-fallback of `extractProviderName`
computes: keep the run before the first `'"'` or `']'` from position `start`
on, falling back to `fb` when that run is empty. -/
theorem provStop_slice (p : List Char) (start : Nat) (fb : String) :
    (if start < provStop p start then
       String.mk ((p.drop start).take (provStop p start - start))
     else fb) =
    (if ((p.drop start).takeWhile fun c => !(c == '"' || c == ']')).isEmpty then fb
     else String.mk ((p.drop start).takeWhile fun c => !(c == '"' || c == ']'))) := by
  have hlen : (p.drop start).length = p.length - start := List.length_drop start p
  unfold provStop
  cases hf : (p.drop start).findIdx? fun c => c == '"' || c == ']' with
  | none =>
    dsimp only
    have htw := takeWhile_of_findIdx?_eq_none (fun c => c == '"' || c == ']') _ hf
    rw [htw]
    by_cases hb : start < p.length
    · have h1 : p.length - start = (p.drop start).length := hlen.symm
      have h2 : ¬(p.drop start).isEmpty = true := by
        rw [List.isEmpty_iff]
        intro hnil
        rw [hnil] at hlen
        simp at hlen
        omega
      rw [if_pos hb, if_neg h2, h1, List.take_length]
    · have h2 : (p.drop start).isEmpty = true := by
        rw [List.isEmpty_iff, ← List.length_eq_zero]
        omega
      rw [if_neg hb, if_pos h2]
  | some j =>
    dsimp only
    have htake := take_of_findIdx?_eq_some (fun c => c == '"' || c == ']') _ j hf
    have hjlt := lt_length_of_findIdx?_eq_some (fun c => c == '"' || c == ']') _ j hf
    have harith : start + j - start = j := by omega
    rw [harith]
    by_cases hj : 0 < j
    · have hne : ¬((p.drop start).takeWhile fun c => !(c == '"' || c == ']')).isEmpty = true := by
        rw [List.isEmpty_iff, ← htake, ← List.length_eq_zero, List.length_take]
        omega
      rw [if_pos (by omega), if_neg hne, htake]
    · have hj0 : j = 0 := by omega
      subst hj0
      have he : ((p.drop start).takeWhile fun c => !(c == '"' || c == ']')).isEmpty = true := by
        rw [List.isEmpty_iff, ← htake]
        simp
      rw [if_neg (by omega), if_pos he]

/-- **C7 (amended)** — what `extractProviderName` actually computes: the
characters after the last `'/'` (with no `'/'`, only the last character),
truncated before the first following `'"'` or `']'`; when that slice is
empty the whole provider string is returned, and the empty string maps to
itself. -/
theorem extractProviderName_amended_agrees (provider : String) :
    extractProviderName provider = extractProviderNameAmended provider := by
  unfold extractProviderName extractProviderNameAmended
  by_cases h : provider.length = 0
  · rw [if_pos h, if_pos h]
  · rw [if_neg h, if_neg h]
    exact provStop_slice provider.data (provStart provider.data) provider

/-- A concrete snapshot instance used by several concrete runs. -/
def sampleInstance : StateInstance :=
  ⟨1, [("ami", .str "ami-0c55b159cbfafe1d0")], [], []⟩

/-- A resource whose provider string `"aws"` contains no path separator. -/
def sampleResource : StateResource :=
  ⟨"managed", "aws_instance", "example", "aws", [sampleInstance]⟩

/-- A snapshot declaring one resource with one instance. -/
def sampleSnapshot : TerraformState :=
  ⟨4, "1.0.0", 1, "lineage", [], [sampleResource]⟩

/-- **C7 (counterexample)** — for the separator-free provider string
`"aws"` the code stores provider name `"s"` (the scan leaves `start` at the
last index, not at 0), while the claim demands the whole string `"aws"`:
the record emitted for `sampleResource` carries provider name `"s"`. -/
theorem extractProviderName_no_separator_cex :
    extractProviderName "aws" = "s" ∧
    (stateObjects 0 sampleStateFile sampleSnapshot).map TerraformObject.providerName =
      ["s"] ∧
    ("s" : String) ≠ "aws" := by
  refine ⟨by decide, ?_, by decide⟩
  rfl

/-! ## Declarative-config parser (`TerraformParser`)

`TerraformParser.Parse` feeds the item's content through the external HCL
library (`ParseHCL`, then `PartialContent` with the six block schemas); the
embedding takes the outcome of that decode — the block list, or a file-level
failure — as an explicit argument.  An attribute expression is modelled by
its printed representation (`fmt.Sprintf("%v", expr)`) together with a flag
recording whether the expression is well-formed for value extraction: the
classification the spec speaks about.  The repository code never consults
that flag — `extractSimpleValue` returns the printed representation and a
`nil` error for every expression. -/

/-- An HCL attribute expression as the repository code can observe it. -/
structure HclExpr where
  printed : String
  wellFormed : Bool

/-- `TerraformParser.extractSimpleValue`: always returns the expression's
string representation with no error; its failure path is dead code. -/
def extractSimpleValue (e : HclExpr) : Except String JsonValue :=
  .ok (.str e.printed)

/-- An HCL block body at the boundary the repository consumes: its
attributes, plus whether the external `JustAttributes` call reports an error
on this body (in HCL that happens when the body also holds nested blocks). -/
structure HclBody where
  attrs : List (String × HclExpr)
  attrsErr : Bool

/-- `hcl.Body.JustAttributes` at the boundary. -/
def justAttributes (b : HclBody) : Except String (List (String × HclExpr)) :=
  if b.attrsErr then .error "body has non-attribute elements" else .ok b.attrs

/-- `TerraformParser.extractConfiguration`: a `JustAttributes` failure
returns the still-empty configuration together with an error; otherwise
every attribute is stored — the extracted value when extraction succeeds,
else the expression's string representation (the `else` branch of the
source; dead, since extraction always succeeds). -/
def extractConfiguration (b : HclBody) : Except String (List (String × JsonValue)) :=
  match justAttributes b with
  | .error e => .error ("failed to get attributes: " ++ e)
  | .ok attrs =>
    .ok (attrs.map fun a =>
      match extractSimpleValue a.2 with
      | .ok v => (a.1, v)
      | .error _ => (a.1, .str a.2.printed))

/-- An HCL block as produced by `PartialContent` under the schema in
`TerraformParser.Parse`. -/
structure HclBlock where
  btype : String
  labels : List String
  body : HclBody

/-- The `switch block.Type` of `parseBlock`: object type, name, resource
type and address per block kind; `none` for the `default` branch.  The
schema fixes the label arity, so label access is total (`getD`). -/
def blockHeader (block : HclBlock) : Option (TerraformObjectType × String × String × String) :=
  match block.btype with
  | "resource" =>
    some (.resource, block.labels.getD 1 "", block.labels.getD 0 "",
      block.labels.getD 0 "" ++ "." ++ block.labels.getD 1 "")
  | "provider" =>
    some (.provider, block.labels.getD 0 "", "", "provider." ++ block.labels.getD 0 "")
  | "variable" =>
    some (.variable', block.labels.getD 0 "", "", "var." ++ block.labels.getD 0 "")
  | "output" =>
    some (.output, block.labels.getD 0 "", "", "output." ++ block.labels.getD 0 "")
  | "module" =>
    some (.module, block.labels.getD 0 "", "", "module." ++ block.labels.getD 0 "")
  | "data" =>
    some (.data, block.labels.getD 1 "", block.labels.getD 0 "",
      "data." ++ block.labels.getD 0 "" ++ "." ++ block.labels.getD 1 "")
  | _ => none

/-- `TerraformParser.parseBlock`: unknown block types fail; a configuration
extraction failure is replaced by the empty configuration and the block is
emitted regardless.  Unassigned record fields keep their Go zero value. -/
def parseBlock (now : Nat) (fileID : String) (block : HclBlock) :
    Except String TerraformObject :=
  match blockHeader block with
  | none => .error ("unknown block type: " ++ block.btype)
  | some (objectType, name, resourceType, address) =>
    .ok
      { id := generateObjectID fileID objectType.tag name 0
        fileID := fileID
        type := objectType
        name := name
        resourceType := resourceType
        configuration :=
          match extractConfiguration block.body with
          | .ok c => c
          | .error _ => []
        dependencies := []
        address := address
        mode := ""
        providerName := ""
        schemaVersion := 0
        sensitiveValues := []
        createdAt := now
        updatedAt := now }

/-- `TerraformParser.CanParse`. -/
def TerraformParser.canParse (ft : FileType) : Bool := ft == .tf

/-- The loop of `TerraformParser.Parse` over the decoded blocks: blocks on
which `parseBlock` fails are skipped, the others are appended in order. -/
def terraformObjects (now : Nat) (fileID : String) (blocks : List HclBlock) :
    List TerraformObject :=
  blocks.filterMap fun b => (parseBlock now fileID b).toOption

/-- `TerraformParser.Parse`, given the outcome of the external HCL decode:
a file-level decode failure fails the whole item. -/
def TerraformParser.parse (now : Nat) (fileID : String)
    (decoded : Except String (List HclBlock)) : Except String (List TerraformObject) :=
  match decoded with
  | .error e => .error ("failed to parse HCL: " ++ e)
  | .ok blocks => .ok (terraformObjects now fileID blocks)

/-- A config block with two well-formed attribute expressions and one
malformed one, all three surviving to the decoded body. -/
def mixedAttrBlock : HclBlock :=
  ⟨"resource", ["aws_instance", "web"],
    ⟨[("good1", ⟨"ami-123", true⟩), ("good2", ⟨"t2.micro", true⟩),
      ("bad", ⟨"malformed-42", false⟩)], false⟩⟩

/-- **C8 (counterexample)** — the malformed attribute is not omitted:
parsing the block with attributes `good1`, `good2` (well-formed) and `bad`
(malformed) yields exactly one record whose configuration contains all
three, `bad` included — value extraction in this code never fails, and its
failure path would store the expression's string representation rather than
drop the attribute. -/
theorem config_block_keeps_malformed_attr_cex :
    (terraformObjects 0 "file-2" [mixedAttrBlock]).length = 1 ∧
    (terraformObjects 0 "file-2" [mixedAttrBlock]).map
        (fun o => o.configuration.lookup "bad") = [some (JsonValue.str "malformed-42")] ∧
    (terraformObjects 0 "file-2" [mixedAttrBlock]).map
        (fun o => o.configuration.lookup "good1") = [some (JsonValue.str "ami-123")] ∧
    (terraformObjects 0 "file-2" [mixedAttrBlock]).map
        (fun o => o.configuration.lookup "good2") = [some (JsonValue.str "t2.micro")] :=
  ⟨rfl, rfl, rfl, rfl⟩

/-- **C8 (amended)** — per-attribute extraction failure never fails the
block and never omits an attribute: every block that decodes at the
block-schema level (any of the six schema kinds: resource, provider,
variable, output, module, data) yields exactly one record; when body-level
attribute enumeration succeeds its configuration holds every attribute
(each mapped to its extracted value, i.e. its string representation), and
when enumeration fails the record is still emitted with an empty
configuration. -/
theorem config_block_attribute_leniency_amended (now : Nat) (fid : String)
    (b : HclBlock)
    (h : b.btype ∈ ["resource", "provider", "variable", "output", "module", "data"]) :
    ∃ obj, parseBlock now fid b = .ok obj ∧
      obj.configuration =
        (if b.body.attrsErr then []
         else b.body.attrs.map fun a => (a.1, JsonValue.str a.2.printed)) := by
  obtain ⟨bt, labels, body⟩ := b
  simp only [List.mem_cons, List.not_mem_nil, or_false] at h
  rcases h with rfl | rfl | rfl | rfl | rfl | rfl
  all_goals
    refine ⟨_, rfl, ?_⟩
    by_cases hb : body.attrsErr <;>
      simp [parseBlock, blockHeader, extractConfiguration, justAttributes,
        extractSimpleValue, hb]

/-- Witness for `config_block_attribute_leniency_amended` at the concrete
mixed block. -/
theorem config_block_attribute_leniency_amended_witness :
    mixedAttrBlock.btype ∈ ["resource", "provider", "variable", "output", "module", "data"] ∧
      ∃ obj, parseBlock 0 "file-2" mixedAttrBlock = .ok obj ∧
        obj.configuration =
          (if mixedAttrBlock.body.attrsErr then []
           else mixedAttrBlock.body.attrs.map fun a => (a.1, JsonValue.str a.2.printed)) :=
  ⟨by decide, config_block_attribute_leniency_amended 0 "file-2" mixedAttrBlock (by decide)⟩

/-! ## Record identifiers (C6) -/

/-- An item with identifier `"a"`. -/
def collideFileA : TerraformFile := ⟨"a", .s3, "p1", .tfstate, "", "h1", 0, 0⟩

/-- An item with identifier `"a:b"` — the joining separator occurs in the
identifier itself. -/
def collideFileB : TerraformFile := ⟨"a:b", .s3, "p2", .tfstate, "", "h2", 0, 0⟩

/-- A single instance with no attributes. -/
def collideInstance : StateInstance := ⟨0, [], [], []⟩

/-- Resource of type `"b"` named `"c:0"`. -/
def collideResourceA : StateResource := ⟨"managed", "b", "c:0", "reg/aws", [collideInstance]⟩

/-- Resource of type `"c"` named `"0"`. -/
def collideResourceB : StateResource := ⟨"managed", "c", "0", "reg/aws", [collideInstance]⟩

/-- Snapshot holding `collideResourceA`. -/
def collideStateA : TerraformState := ⟨4, "1.0.0", 1, "l", [], [collideResourceA]⟩

/-- Snapshot holding `collideResourceB`. -/
def collideStateB : TerraformState := ⟨4, "1.0.0", 1, "l", [], [collideResourceB]⟩

/-- **C6 (counterexample)** — two records produced by the snapshot parser
with the same identifier but different derivation inputs: both hash the
preimage `"a:b:c:0:0"`, because the four inputs are joined with `":"` and
the inputs themselves may contain `":"`.  The records agree on the kind tag
(`resource`) and the instance index (both `0`) but differ in owning item id
(`"a"` vs `"a:b"`) and name (`"c:0"` vs `"0"`), refuting the claimed
"identifiers agree iff the four derivation inputs agree". -/
theorem record_id_collision_cex :
    (stateObjects 0 collideFileA collideStateA).map TerraformObject.id =
      (stateObjects 0 collideFileB collideStateB).map TerraformObject.id ∧
    (stateObjects 0 collideFileA collideStateA).map TerraformObject.fileID = ["a"] ∧
    (stateObjects 0 collideFileB collideStateB).map TerraformObject.fileID = ["a:b"] ∧
    (stateObjects 0 collideFileA collideStateA).map TerraformObject.name = ["c:0"] ∧
    (stateObjects 0 collideFileB collideStateB).map TerraformObject.name = ["0"] ∧
    (stateObjects 0 collideFileA collideStateA).map TerraformObject.type =
      [TerraformObjectType.resource] ∧
    (stateObjects 0 collideFileB collideStateB).map TerraformObject.type =
      [TerraformObjectType.resource] :=
  ⟨rfl, rfl, rfl, rfl, rfl, rfl, rfl⟩

/-- **C6 (amended)** — every record identifier is `generateObjectID`
(SHA-256 of the `":"`-joined inputs, truncated to 8 bytes, in hex) applied
to the owning item id, a type argument — which is the record's *resource
type* for the snapshot parser but the record-kind tag for the config parser
— the name, and the instance index (always `0` for the config parser).
Equal derivation inputs therefore give equal identifiers, but distinct
inputs may collide since the inputs are joined with a separator they may
themselves contain. -/
theorem record_id_derivation_amended :
    (∀ (now : Nat) (file : TerraformFile) (st : TerraformState),
      ∀ o ∈ stateObjects now file st,
        ∃ i, o.id = generateObjectID o.fileID o.resourceType o.name i) ∧
    (∀ (now : Nat) (fid : String) (blocks : List HclBlock),
      ∀ o ∈ terraformObjects now fid blocks,
        o.id = generateObjectID o.fileID o.type.tag o.name 0) := by
  constructor
  · intro now file st o ho
    rcases List.mem_flatMap.mp ho with ⟨r, _, hmem⟩
    rcases List.mem_map.mp hmem with ⟨p, _, rfl⟩
    exact ⟨p.1, rfl⟩
  · intro now fid blocks o ho
    rcases List.mem_filterMap.mp ho with ⟨b, _, hob⟩
    cases hh : blockHeader b with
    | none => simp [parseBlock, hh, Except.toOption] at hob
    | some hdr =>
      obtain ⟨t, n, rt, addr⟩ := hdr
      simp [parseBlock, hh, Except.toOption] at hob
      subst hob
      rfl

/-- Witness for `record_id_derivation_amended` at a concrete record of the
snapshot parser. -/
theorem record_id_derivation_amended_witness :
    ∃ i, (mkStateObject 0 collideFileA collideResourceA 0 collideInstance).id =
      generateObjectID
        (mkStateObject 0 collideFileA collideResourceA 0 collideInstance).fileID
        (mkStateObject 0 collideFileA collideResourceA 0 collideInstance).resourceType
        (mkStateObject 0 collideFileA collideResourceA 0 collideInstance).name i :=
  record_id_derivation_amended.1 0 collideFileA collideStateA _
    (by
      have h : stateObjects 0 collideFileA collideStateA =
          [mkStateObject 0 collideFileA collideResourceA 0 collideInstance] := rfl
      rw [h]
      exact List.mem_singleton.mpr rfl)

/-! ## Determinism of the parsers (C9) -/

/-- Erase the two wall-clock fields of a record. -/
def eraseTimes (o : TerraformObject) : TerraformObject :=
  { o with createdAt := 0, updatedAt := 0 }

/-- **C9 (counterexample)** — parser output is not a function of the item's
content alone: the records carry `time.Now()` in `createdAt`/`updatedAt`, so
two invocations of `StateParser.Parse` on the same item at clock readings 0
and 1 return record lists differing in every record's timestamps. -/
theorem parse_depends_on_clock_cex :
    (stateObjects 0 sampleStateFile sampleSnapshot).map TerraformObject.createdAt = [0] ∧
    (stateObjects 1 sampleStateFile sampleSnapshot).map TerraformObject.createdAt = [1] ∧
    StateParser.parse 0 sampleStateFile (.ok sampleSnapshot) ≠
      StateParser.parse 1 sampleStateFile (.ok sampleSnapshot) := by
  refine ⟨rfl, rfl, fun h => ?_⟩
  have h2 : (stateObjects 0 sampleStateFile sampleSnapshot).map TerraformObject.createdAt =
      (stateObjects 1 sampleStateFile sampleSnapshot).map TerraformObject.createdAt := by
    have h3 := congrArg (fun r => (r.toOption.getD []).map TerraformObject.createdAt) h
    simpa [StateParser.parse, Except.toOption] using h3
  rw [show (stateObjects 0 sampleStateFile sampleSnapshot).map TerraformObject.createdAt =
        [0] from rfl,
      show (stateObjects 1 sampleStateFile sampleSnapshot).map TerraformObject.createdAt =
        [1] from rfl] at h2
  simp at h2

theorem map_eraseTimes_stateObjects (t : Nat) (file : TerraformFile) (st : TerraformState) :
    (stateObjects t file st).map eraseTimes = stateObjects 0 file st := by
  simp only [stateObjects, List.map_flatMap, List.map_map]
  rfl

theorem toOption_parseBlock_eraseTimes (t : Nat) (fid : String) (b : HclBlock) :
    ((parseBlock t fid b).toOption).map eraseTimes = (parseBlock 0 fid b).toOption := by
  cases hh : blockHeader b with
  | none => simp [parseBlock, hh, Except.toOption]
  | some hdr =>
    obtain ⟨ty, n, rt, addr⟩ := hdr
    simp [parseBlock, hh, Except.toOption]
    rfl

theorem map_eraseTimes_terraformObjects (t : Nat) (fid : String) (blocks : List HclBlock) :
    (terraformObjects t fid blocks).map eraseTimes = terraformObjects 0 fid blocks := by
  simp only [terraformObjects, List.map_filterMap]
  exact List.filterMap_congr fun b _ => toOption_parseBlock_eraseTimes t fid b

/-- **C9 (amended)** — both parsers are deterministic in the item's content
up to the clock: for any two clock readings, the outputs of `Parse` on the
same decoded item agree on every record field except the `createdAt` /
`updatedAt` timestamps (and agree on success/failure). -/
theorem parse_deterministic_modulo_clock_amended :
    (∀ (t1 t2 : Nat) (file : TerraformFile) (d : Except String TerraformState),
      (StateParser.parse t1 file d).map (List.map eraseTimes) =
        (StateParser.parse t2 file d).map (List.map eraseTimes)) ∧
    (∀ (t1 t2 : Nat) (fid : String) (d : Except String (List HclBlock)),
      (TerraformParser.parse t1 fid d).map (List.map eraseTimes) =
        (TerraformParser.parse t2 fid d).map (List.map eraseTimes)) := by
  constructor
  · intro t1 t2 file d
    cases d with
    | error e => rfl
    | ok st =>
      simp [StateParser.parse, Except.map, map_eraseTimes_stateObjects]
  · intro t1 t2 fid d
    cases d with
    | error e => rfl
    | ok blocks =>
      simp [TerraformParser.parse, Except.map, map_eraseTimes_terraformObjects]

end TerraformDashboard
